import Mathlib

/-!
Verification development for the `create-totistack` schema-driven code
generator.  JavaScript strings are modelled as lists of character codes
(`JStr`); JavaScript runtime values as the inductive `JSVal`.  Each
definition is a shallow embedding of the corresponding function in the
repository sources (`src/lib/helper/helperF.js`,
`src/lib/helper/generateFirestoreUtilFile.js`, `src/lib/generateRouter.js`,
`src/lib/generateStore.js` and the CLI entry point).
-/

/-- JavaScript string, modelled as the list of its character codes. -/
abbrev JStr := List Nat

/-- Embed a Lean string literal as a `JStr` (used for concrete inputs). -/
def str (s : String) : JStr := s.data.map Char.toNat

/-- ASCII whitespace recognised by the model of `String.prototype.trim` and
of the `\s` regex class (space, tab, LF, VT, FF, CR). -/
def isWsCode (c : Nat) : Bool :=
  c == 32 || c == 9 || c == 10 || c == 11 || c == 12 || c == 13

/-- Character class of the separator regex `/[-\s_]+/` used by
`toCamelCase` / `toPascalCase` in `src/lib/helper/helperF.js`. -/
def isSepCode (c : Nat) : Bool := c == 45 || c == 95 || isWsCode c

/-- Model of `String.prototype.toLowerCase` on one code (ASCII range). -/
def lowerCode (c : Nat) : Nat := if 65 ≤ c ∧ c ≤ 90 then c + 32 else c

/-- Model of `String.prototype.toUpperCase` on one code (ASCII range). -/
def upperCode (c : Nat) : Nat := if 97 ≤ c ∧ c ≤ 122 then c - 32 else c

/-- Model of `String.prototype.trim`. -/
def jsTrim (s : JStr) : JStr :=
  ((s.dropWhile isWsCode).reverse.dropWhile isWsCode).reverse

/-- Model of `String.prototype.toLowerCase`. -/
def jsToLower (s : JStr) : JStr := s.map lowerCode

/-- One step (from the right) of the model of `split(/[-\s_]+/)`.  The
`Bool` records whether the first character of the already-processed suffix
was a separator, so that a run of separators produces a single cut. -/
def splitStep (c : Nat) (st : Bool × List JStr) : Bool × List JStr :=
  if isSepCode c then
    if st.1 then (true, st.2) else (true, [] :: st.2)
  else
    match st.2 with
    | [] => (false, [[c]])
    | g :: gs => (false, (c :: g) :: gs)

/-- Model of `String.prototype.split(/[-\s_]+/)` (JavaScript semantics:
runs of separators collapse to one cut, boundary separators yield empty
chunks, and the empty string splits to `[""]`). -/
def splitSeps (s : JStr) : List JStr := (s.foldr splitStep (false, [[]])).2

/-- Model of `w.charAt(0).toUpperCase() + w.slice(1)`. -/
def capitalizeWord : JStr → JStr
  | [] => []
  | c :: cs => upperCode c :: cs

/-- `toCamelCase` from `src/lib/helper/helperF.js`:
`str.trim().toLowerCase().split(/[-\s_]+/).map((w, i) => i === 0 ? w :
w.charAt(0).toUpperCase() + w.slice(1)).join('')`. -/
def toCamelCase (s : JStr) : JStr :=
  match splitSeps (jsToLower (jsTrim s)) with
  | [] => []
  | w :: ws => w ++ (ws.map capitalizeWord).flatten

/-- `toPascalCase` from `src/lib/helper/helperF.js`:
`str.trim().toLowerCase().split(/[-\s_]+/).map(w =>
w.charAt(0).toUpperCase() + w.slice(1)).join('')`. -/
def toPascalCase (s : JStr) : JStr :=
  ((splitSeps (jsToLower (jsTrim s))).map capitalizeWord).flatten

/-!
## Model of JavaScript runtime values

The generated validators receive arbitrary JavaScript values.  We model the
value universe needed by the validator: primitives, `Date` objects, plain
objects, and one level of arrays (array elements are primitives; nesting
deeper than one level is irrelevant to every claim, which only needs
`String(v)` and the `typeof`/`Array.isArray` tests).
-/

/-- A non-array JavaScript value (array element). -/

inductive JSPrim where
  | pundef
  | pnull
  | pstr (s : JStr)
  | pnum (n : Int)
  | pnan
  | pbool (b : Bool)
  | pobj
  | pdate (valid : Bool)
deriving DecidableEq

/-- A JavaScript value as seen by the generated `validate` functions. -/
inductive JSVal where
  | undef
  | jnull
  | jstr (s : JStr)
  | jnum (n : Int)
  | jnan
  | jbool (b : Bool)
  | jarr (elems : List JSPrim)
  | jobj
  | jdate (valid : Bool)
deriving DecidableEq

/-- Decimal representation of an integer (model of JS number-to-string for
integral numbers). -/
def intStr (n : Int) : JStr := n.repr.data.map Char.toNat

/-- Model of `String(p)` for an array element inside `Array.prototype.join`:
`null` and `undefined` elements render as the empty string.  A valid
`Date` renders as its (non-empty) date string, modelled by a fixed
placeholder; an invalid one as `"Invalid Date"`. -/
def jsPrimElemString : JSPrim → JStr
  | .pundef => []
  | .pnull => []
  | .pstr s => s
  | .pnum n => intStr n
  | .pnan => str "NaN"
  | .pbool true => str "true"
  | .pbool false => str "false"
  | .pobj => str "[object Object]"
  | .pdate true => str "DateString"
  | .pdate false => str "Invalid Date"

/-- Model of `Array.prototype.toString` (join with `","`, code 44). -/
def jsArrJoin : List JSPrim → JStr
  | [] => []
  | [p] => jsPrimElemString p
  | p :: ps => jsPrimElemString p ++ 44 :: jsArrJoin ps

/-- Model of the JavaScript `String(v)` coercion. -/
def jsToString : JSVal → JStr
  | .undef => str "undefined"
  | .jnull => str "null"
  | .jstr s => s
  | .jnum n => intStr n
  | .jnan => str "NaN"
  | .jbool true => str "true"
  | .jbool false => str "false"
  | .jarr ps => jsArrJoin ps
  | .jobj => str "[object Object]"
  | .jdate true => str "DateString"
  | .jdate false => str "Invalid Date"

/-- The field-type tags offered by the CLI (`FIELD_TYPES` in the intake
script); `other` stands for any unrecognised tag, for which the generator
emits no type check (`default` case of the `switch`). -/
inductive FieldTy where
  | string
  | number
  | boolean
  | array
  | object
  | timestamp
  | email
  | other
deriving DecidableEq

/-- Model of `/^\S+@\S+\.\S+$/.test(s)`: no whitespace anywhere, an `@`
(code 64) preceded by at least one character, and after it a `.` (code 46)
with at least one character on each side. -/
def emailTest (s : JStr) : Bool :=
  (!s.any isWsCode) &&
    (List.range s.length).any (fun i =>
      decide (1 ≤ i) && (s.getD i 0 == 64) &&
        (List.range s.length).any (fun j =>
          decide (i + 2 ≤ j) && decide (j + 2 ≤ s.length) &&
            (s.getD j 0 == 46)))

/-- Model of reading `data.f` on a JS object modelled as an association
list: a missing key reads as `undefined`. -/
def getField (data : List (JStr × JSVal)) (f : JStr) : JSVal :=
  (data.lookup f).getD JSVal.undef

/-- The generated required-field condition
(`generateValidationModule`, `src/lib/helper/generateFirestoreUtilFile.js`):
`data.f === undefined || data.f === null || String(data.f).trim() === ''`. -/
def reqFailB : JSVal → Bool
  | .undef => true
  | .jnull => true
  | v => (jsTrim (jsToString v)).isEmpty

/-- The generated per-type `typeCheckCondition` (`true` means the type or
format check fails).  `dOracle s` models `!isNaN(new Date(s).getTime())`
for a string `s`. -/
def typeFailB (dOracle : JStr → Bool) : FieldTy → JSVal → Bool
  | .string, v => match v with
    | .jstr _ => false
    | _ => true
  | .number, v => match v with
    | .jnum _ => false
    | _ => true
  | .boolean, v => match v with
    | .jbool _ => false
    | _ => true
  | .array, v => match v with
    | .jarr _ => false
    | _ => true
  | .object, v => match v with
    | .jobj => false
    | .jdate _ => false
    | _ => true
  | .timestamp, v => match v with
    | .jstr s => !dOracle s
    | .jdate valid => !valid
    | _ => true
  | .email, v => match v with
    | .jstr s => !emailTest s
    | _ => true
  | .other, _ => false

/-- Whether the `switch` on the field type produced a `typeCheckCondition`
at all (the `default` branch leaves it empty, so no check is emitted). -/
def hasTypeCheck : FieldTy → Bool
  | .other => false
  | _ => true

/-- An entry of the `errors` array returned by the generated validator.
The generated messages (`'f is required.'`, `"'f' must be a …."`,
`"The email address 'f' is already in use."`) are pairwise distinct
string templates, modelled as constructors. -/
inductive VError where
  | required (f : JStr)
  | typeMismatch (f : JStr) (ty : FieldTy)
  | emailInUse (f : JStr)
deriving DecidableEq

/-- The field an error message refers to. -/
def errField : VError → JStr
  | .required f => f
  | .typeMismatch f _ => f
  | .emailInUse f => f

/-- Outcome of the generated `fetchSignInMethodsForEmail` call: a list of
sign-in methods, or a rejected promise (network failure etc.). -/
inductive EmailLookup where
  | methods (ms : List JStr)
  | failure
deriving DecidableEq

/-- Section 1 of the generated validator: one required-field check per
declared field, in declaration order. -/
def requiredPart (fields : List (JStr × FieldTy))
    (data : List (JStr × JSVal)) : List VError :=
  fields.filterMap fun p =>
    if reqFailB (getField data p.1) then some (.required p.1) else none

/-- Section 2 of the generated validator: a type/format check per field
that has one, guarded by
`data.f !== undefined && data.f !== null && String(data.f).trim() !== ''`
(the exact negation of the required condition). -/
def typePart (dOracle : JStr → Bool) (fields : List (JStr × FieldTy))
    (data : List (JStr × JSVal)) : List VError :=
  fields.filterMap fun p =>
    if hasTypeCheck p.2 && !reqFailB (getField data p.1) &&
        typeFailB dOracle p.2 (getField data p.1) then
      some (.typeMismatch p.1 p.2)
    else none

/-- Section 3 of the generated validator: for each `email`-typed field, if
`typeof v === 'string' && v.trim() !== '' && /^\S+@\S+\.\S+$/.test(v)`,
an asynchronous existence check runs; a non-empty method list adds an
"already in use" error, while a failed lookup only logs
(`console.error`) and adds no error. -/
def emailPart (eOracle : JStr → EmailLookup) (data : List (JStr × JSVal)) :
    List (JStr × FieldTy) → List VError × List JStr
  | [] => ([], [])
  | (f, _) :: rest =>
    let tail := emailPart eOracle data rest
    match getField data f with
    | .jstr s =>
      if !(jsTrim s).isEmpty && emailTest s then
        match eOracle s with
        | .methods ms =>
          if !ms.isEmpty then (.emailInUse f :: tail.1, tail.2) else tail
        | .failure => (tail.1, f :: tail.2)
      else tail
    | _ => tail

/-- The generated `validate<Collection>(data)` function (model): returns
the `errors` array (sections concatenated in emission order) and the list
of fields whose email-existence check failed and was merely logged. -/
def validateData (fields : List (JStr × FieldTy))
    (data : List (JStr × JSVal)) (dOracle : JStr → Bool)
    (eOracle : JStr → EmailLookup) : List VError × List JStr :=
  let emails :=
    emailPart eOracle data
      (fields.filter fun p =>
        match p.2 with
        | FieldTy.email => true
        | _ => false)
  (requiredPart fields data ++ typePart dOracle fields data ++ emails.1,
    emails.2)

/-!
## Persistence-access operations
(`useFirestoreCollectionActions` in
`src/lib/helper/generateFirestoreUtilFile.js`; the file holds two
generator variants — the basic one and the "advanced" one — modelled
side by side as `_basic` / `_advanced`.)
-/

/-- Per-collection pagination state slice
(`state[collectionName].value`). -/

structure PageState (Doc : Type) where
  items : List Doc
  lastVisible : Option Doc
  hasMore : Bool
  pageSize : Nat

/-- `fetchInitialPage`: the query applies the filters/sort and
`limit(pageSize)`, so the snapshot holds the first `pageSize` documents of
the (filtered, ordered) backend stream; the new state stores the snapshot
docs, the last doc (or null), and
`hasMore: snapshot.docs.length === pageSize`. -/
def fetchInitialPage {Doc : Type} (backend : List Doc) (pageSize : Nat)
    (st : PageState Doc) : PageState Doc :=
  let docs := backend.take pageSize
  { st with
    items := docs
    lastVisible := docs.getLast?
    hasMore := docs.length == pageSize
    pageSize := pageSize }

/-- `fetchNextPage`: no-op when there is no cursor or `hasMore` is false;
otherwise appends the next `pageSize`-limited snapshot (the stream after
the cursor) and recomputes `hasMore` the same way. -/
def fetchNextPage {Doc : Type} (afterCursor : List Doc)
    (st : PageState Doc) : PageState Doc :=
  if st.lastVisible.isNone || !st.hasMore then st
  else
    let docs := afterCursor.take st.pageSize
    { st with
      items := st.items ++ docs
      lastVisible := docs.getLast?
      hasMore := docs.length == st.pageSize }

/-- The not-found message thrown by `get` in the basic generator variant
(`generateFirestoreUtilFile.js`, first variant). -/
def notFoundMsg : String := "Document with ID  not found"

/-- Result of one generated operation: the value returned / error thrown,
plus the shared `state.error` slot after the call. -/
structure OpOutcome (α : Type) where
  result : Except String α
  errorSlot : Option String

/-- `get(id)` of the basic generator variant: fetches the snapshot
(`fetch` is the store's answer: error, missing, or found), THROWS
`notFoundMsg` when the document does not exist, and records any thrown
message in `state.error`. -/
def get_basic (Doc : Type) (fetch : Except String (Option Doc))
    (slot : Option String) : OpOutcome Doc :=
  match fetch with
  | .error e => ⟨.error e, some e⟩
  | .ok none => ⟨.error notFoundMsg, some notFoundMsg⟩
  | .ok (some d) => ⟨.ok d, slot⟩

/-- `get(id)` of the advanced generator variant: returns `null`
(`Option.none`) when the document does not exist, without touching
`state.error`; store errors are recorded and re-thrown. -/
def get_advanced (Doc : Type) (fetch : Except String (Option Doc))
    (slot : Option String) : OpOutcome (Option Doc) :=
  match fetch with
  | .error e => ⟨.error e, some e⟩
  | .ok none => ⟨.ok none, slot⟩
  | .ok (some d) => ⟨.ok (some d), slot⟩

/-- The authenticated user as stored in `state.currentUser.value`:
`uid` and a `roles` array, each possibly absent. -/
structure CurrentUser where
  uid : Option String
  roles : Option (List String)

/-- `_checkRole` of the basic generator variant: errors when there is no
current user or no roles array, then when the required role is missing. -/
def checkRole_basic (cu : Option CurrentUser) (required : String) :
    Except String Unit :=
  match cu with
  | none => .error "User not authenticated"
  | some u =>
    match u.roles with
    | none => .error "User not authenticated"
    | some rs =>
      if required ∈ rs then .ok ()
      else .error ("User lacks required role: " ++ required)

/-- `_checkRole` of the advanced generator variant: errors when there is
no current user or no `uid`, then when the roles array is absent or the
required role is missing. -/
def checkRole_advanced (cu : Option CurrentUser) (required : String) :
    Except String Unit :=
  match cu with
  | none => .error "Authentication required for this operation."
  | some u =>
    match u.uid with
    | none => .error "Authentication required for this operation."
    | some _ =>
      match u.roles with
      | none => .error ("User lacks required role: " ++ required)
      | some rs =>
        if required ∈ rs then .ok ()
        else .error ("User lacks required role: " ++ required)

/-- `assignRoles(userId, roles)` of the BASIC generator variant: after the
admin check it writes `{roles: Array.isArray(roles) ? roles : [roles]}` —
it OVERWRITES the user's roles array with the argument, never reading the
existing roles.  (`currentRoles` is the user's existing roles array; the
basic variant ignores it.) -/
def assignRoles_basic (cu : Option CurrentUser)
    (currentRoles toAssign : List String) : Except String (List String) :=
  match checkRole_basic cu "admin" with
  | .error e => .error e
  | .ok _ => .ok toAssign

/-- Model of `Array.from(new Set(l))`: keep the first occurrence of each
element, in insertion order. -/
def jsSetDedup (seen : List String) : List String → List String
  | [] => []
  | x :: xs =>
    if x ∈ seen then jsSetDedup seen xs
    else x :: jsSetDedup (x :: seen) xs

/-- `assignRoles` of the ADVANCED generator variant: admin check, read the
user document (`none` = does not exist; the inner option is the `roles`
field, defaulted to `[]` by `|| []`), then write
`Array.from(new Set([...currentRoles, ...rolesToAssign]))`. -/
def assignRoles_advanced (cu : Option CurrentUser)
    (userDoc : Option (Option (List String))) (toAssign : List String) :
    Except String (List String) :=
  match checkRole_advanced cu "admin" with
  | .error e => .error e
  | .ok _ =>
    match userDoc with
    | none => .error "User with ID not found."
    | some rolesField =>
      .ok (jsSetDedup [] (rolesField.getD [] ++ toAssign))

/-- `revokeRoles` of the ADVANCED generator variant: admin check, read the
user document, then write
`currentRoles.filter(role => !rolesToRevoke.includes(role))`. -/
def revokeRoles_advanced (cu : Option CurrentUser)
    (userDoc : Option (Option (List String))) (toRevoke : List String) :
    Except String (List String) :=
  match checkRole_advanced cu "admin" with
  | .error e => .error e
  | .ok _ =>
    match userDoc with
    | none => .error "User with ID not found."
    | some rolesField =>
      .ok ((rolesField.getD []).filter (fun r => !toRevoke.contains r))

/-- Whether the generated actions object includes `assignRoles` /
`revokeRoles`: the template splices them under
`roles.length > 0 ? (authCollections.includes(collectionName) ? {…} : {})
: ''` (both variants). -/
def authRoleActionsEmitted (roles : List String)
    (authCollections : List JStr) (collectionName : JStr) : Bool :=
  if roles.length > 0 then
    if authCollections.contains collectionName then true else false
  else false

/-!
## Route generator (`src/lib/generateRouter.js`)
Routes are modelled by their `path`, `name`, lazy-loaded `component`
module specifier, and `redirect`; the `meta`/layout annotations and
`props` are not referenced by any claim and are omitted.
-/

/-- The feature flags consumed by `generateRouter(answers)`. -/

structure RouterFlags where
  enableAuth : Bool
  enableRoles : Bool
  enableAuthViews : Bool
  enableAdmin : Bool
  enableLanding : Bool

/-- One entry of the generated route table. -/
structure Route where
  path : JStr
  name : Option JStr
  component : Option JStr
  redirect : Option JStr
deriving DecidableEq

/-- `getStandardComponentLazyImportPath`: the module specifier inside
`() => import('@/views/…')`. -/
def viewImport (p : JStr) : JStr := str "@/views/" ++ p

/-- The mutually exclusive home entry: `LandingPage` when the landing
flag is set, `HomeView` otherwise (both at path `/`, name `Home`). -/
def homeRoute (enableLanding : Bool) : Route :=
  if enableLanding then
    { path := str "/", name := some (str "Home"),
      component := some (viewImport (str "LandingPage.vue")),
      redirect := none }
  else
    { path := str "/", name := some (str "Home"),
      component := some (viewImport (str "HomeView.vue")),
      redirect := none }

/-- The block pushed when `enableAuth && enableAuthViews`. -/
def authRoutesList : List Route :=
  [⟨str "/login", some (str "Login"),
      some (viewImport (str "auth/LoginView.vue")), none⟩,
    ⟨str "/register", some (str "Register"),
      some (viewImport (str "auth/RegisterView.vue")), none⟩,
    ⟨str "/forgot-password", some (str "ForgotPassword"),
      some (viewImport (str "auth/ForgotPasswordView.vue")), none⟩,
    ⟨str "/reset-password", some (str "ResetPassword"),
      some (viewImport (str "auth/ResetPasswordView.vue")), none⟩,
    ⟨str "/verify-email", some (str "VerifyEmail"),
      some (viewImport (str "auth/VerifyEmailView.vue")), none⟩,
    ⟨str "/unauthorized", some (str "Unauthorized"),
      some (viewImport (str "auth/UnauthorizedView.vue")), none⟩,
    ⟨str "/account", some (str "Account"),
      some (viewImport (str "AccountView.vue")), none⟩,
    ⟨str "/settings", some (str "Settings"),
      some (viewImport (str "SettingsView.vue")), none⟩]

/-- The block pushed when `enableAdmin`. -/
def adminRoutesList : List Route :=
  [⟨str "/admin/dashboard", some (str "AdminDashboard"),
      some (viewImport (str "admin/DashboardView.vue")), none⟩,
    ⟨str "/admin/users", some (str "AdminUsers"),
      some (viewImport (str "admin/UsersView.vue")), none⟩]

/-- Per-collection create route:
`/${toCamelCase(name)}/create`, named `${toPascalCase(name)}Create`. -/
def collectionCreateRoute (name : JStr) : Route :=
  { path := str "/" ++ toCamelCase name ++ str "/create",
    name := some (toPascalCase name ++ str "Create"),
    component := some (viewImport (toCamelCase name ++ str "/Create.vue")),
    redirect := none }

/-- Per-collection edit route:
`/${toCamelCase(name)}/edit/:id`, named `${toPascalCase(name)}Edit`. -/
def collectionEditRoute (name : JStr) : Route :=
  { path := str "/" ++ toCamelCase name ++ str "/edit/:id",
    name := some (toPascalCase name ++ str "Edit"),
    component := some (viewImport (toCamelCase name ++ str "/Edit.vue")),
    redirect := none }

/-- The trailing catch-all entry (`/:pathMatch(.*)*` redirecting to `/`).
-/
def catchAllRoute : Route :=
  { path := str "/:pathMatch(.*)*", name := none, component := none,
    redirect := some (str "/") }

/-- `generateRouter`'s route assembly, statement for statement: push the
home entry, then the auth block if both flags are set, then the admin
block if enabled, then a create/edit pair per collection (loop guarded by
`collections && collections.length > 0`), then the catch-all. -/
def generateRoutes (flags : RouterFlags) (collections : List JStr) :
    List Route :=
  let routes : List Route := [homeRoute flags.enableLanding]
  let routes :=
    if flags.enableAuth && flags.enableAuthViews then
      routes ++ authRoutesList
    else routes
  let routes :=
    if flags.enableAdmin then routes ++ adminRoutesList else routes
  let routes :=
    if collections.isEmpty then routes
    else
      collections.foldl
        (fun acc n => acc ++ [collectionCreateRoute n,
          collectionEditRoute n]) routes
  routes ++ [catchAllRoute]

/-!
## Store generator (`generateStore`, advanced variant in `src/unnamed/part_000`
lines 592-665, basic variant in `src/lib/generateStore.js`)
-/

/-- A raw collection as handed over by the intake collaborator; `name`
and `fields` may be absent (`undefined`), and a JS falsy name also covers
the empty string. -/

structure RawCollection where
  name : Option JStr
  fields : Option (List (JStr × FieldTy))
  dataType : Option JStr

/-- A normalized collection. -/
structure ProcessedCollection where
  name : JStr
  fields : List (JStr × FieldTy)
  dataType : JStr
deriving DecidableEq

/-- JS falsiness of `c.name` (`undefined` or the empty string). -/
def rawNameFalsy (c : RawCollection) : Bool :=
  match c.name with
  | none => true
  | some s => s.isEmpty

/-- JS falsiness of `c.fields` (`undefined`; an empty map is truthy). -/
def rawFieldsMissing (c : RawCollection) : Bool := c.fields.isNone

/-- The message of the error thrown for a malformed entry (the real
message also embeds `JSON.stringify(c)`, irrelevant to the claims). -/
def schemaErrorMsg : String :=
  "Collection is missing 'name' or 'fields' property. Each collection must have a name and define its fields."

/-- `v || dflt` for a string-valued option. -/
def jsOrDefault (v : Option JStr) (dflt : JStr) : JStr :=
  match v with
  | none => dflt
  | some s => if s.isEmpty then dflt else s

/-- The per-entry transform of the normalization `map`:
`{...c, name: toCamelCase(c.name).trim(), dataType: c.dataType || 'object'}`. -/
def procRaw (c : RawCollection) : ProcessedCollection :=
  { name := jsTrim (toCamelCase (c.name.getD []))
    fields := c.fields.getD []
    dataType := jsOrDefault c.dataType (str "object") }

/-- The `collections.map(...)` with the throwing validation inside: the
first entry lacking a name or a fields map aborts with the schema error.
-/
def normalizeCollections :
    List RawCollection → Except String (List ProcessedCollection)
  | [] => .ok []
  | c :: cs =>
    if rawNameFalsy c || rawFieldsMissing c then .error schemaErrorMsg
    else
      match normalizeCollections cs with
      | .error e => .error e
      | .ok l => .ok (procRaw c :: l)

/-- `collections.map(...).filter(c => c.name)`: normalization followed by
dropping entries whose derived canonical name is empty. -/
def processCollections (cs : List RawCollection) :
    Except String (List ProcessedCollection) :=
  match normalizeCollections cs with
  | .error e => .error e
  | .ok l => .ok (l.filter (fun p => !p.name.isEmpty))

/-- An observable side effect of `generateStore` (directory creation /
artifact write). -/
inductive GenEffect where
  | mkdirActions
  | writeStateFile
  | writeFirestoreUtil
  | writeActionModule (name : JStr)
  | writeValidator (name : JStr)
  | writeIndexFile
  | writeActivityLogger
  | writeDocumentation
deriving DecidableEq

/-- `generateStore(options)` as a trace of effects plus the error it
throws, in statement order: validate `storeName`, validate `collections`,
normalize (throwing on malformed entries), then create the actions
directory and write every artifact (the action-module loop runs twice in
the source, mirrored here; the validator loop is fused with the second).
-/
def generateStore (storeName : JStr)
    (collections : Option (List RawCollection)) (roles : List String)
    (addActivityLogging : Bool) : List GenEffect × Option String :=
  let cs := collections.getD []
  if storeName.isEmpty then ([], some "Store name is required")
  else if cs.isEmpty then
    ([], some "At least one collection is required")
  else
    match processCollections cs with
    | .error e => ([], some e)
    | .ok processed =>
      ([GenEffect.mkdirActions, GenEffect.writeStateFile,
          GenEffect.writeFirestoreUtil] ++
        processed.map (fun c => GenEffect.writeActionModule c.name) ++
        processed.flatMap (fun c => [GenEffect.writeActionModule c.name,
          GenEffect.writeValidator c.name]) ++
        [GenEffect.writeIndexFile] ++
        (if addActivityLogging then [GenEffect.writeActivityLogger]
          else []) ++
        [GenEffect.writeDocumentation], none)

example : toCamelCase (str "hello world") = str "helloWorld" := by decide
example : toPascalCase (str "hello world") = str "HelloWorld" := by decide
example : toCamelCase (str "user-profiles") = str "userProfiles" := by decide
example : toCamelCase (str "-abc") = str "Abc" := by decide
example : toCamelCase (toCamelCase (str "hello world")) = str "helloworld" := by
  decide

lemma isWsCode_of_isSepCode_eq_false (c : Nat) (h : isSepCode c = false) :
    isWsCode c = false := by
  simp only [isSepCode, Bool.or_eq_false_iff] at h
  exact h.2

lemma isSepCode_eq_false_of_bounds (c : Nat)
    (h : 65 ≤ c ∧ c ≤ 90 ∨ 97 ≤ c ∧ c ≤ 122) : isSepCode c = false := by
  simp only [isSepCode, isWsCode, Bool.or_eq_false_iff, beq_eq_false_iff_ne,
    ne_eq]
  omega

lemma isSepCode_lowerCode (c : Nat) (h : isSepCode c = false) :
    isSepCode (lowerCode c) = false := by
  unfold lowerCode
  split
  · next hc => exact isSepCode_eq_false_of_bounds _ (by omega)
  · exact h

lemma isSepCode_upperCode (c : Nat) (h : isSepCode c = false) :
    isSepCode (upperCode c) = false := by
  unfold upperCode
  split
  · next hc => exact isSepCode_eq_false_of_bounds _ (by omega)
  · exact h

lemma dropWhile_isWsCode_of_forall (l : JStr)
    (h : ∀ c ∈ l, isWsCode c = false) : l.dropWhile isWsCode = l := by
  cases l with
  | nil => rfl
  | cons c cs => simp [List.dropWhile_cons, h c (by simp)]

lemma jsTrim_of_sepFree (l : JStr) (h : ∀ c ∈ l, isSepCode c = false) :
    jsTrim l = l := by
  unfold jsTrim
  rw [dropWhile_isWsCode_of_forall l
      (fun c hc => isWsCode_of_isSepCode_eq_false c (h c hc)),
    dropWhile_isWsCode_of_forall l.reverse
      (fun c hc =>
        isWsCode_of_isSepCode_eq_false c (h c (List.mem_reverse.mp hc))),
    List.reverse_reverse]

lemma foldr_splitStep_sepFree (l : JStr)
    (h : ∀ c ∈ l, isSepCode c = false) :
    l.foldr splitStep (false, [[]]) = (false, [l]) := by
  induction l with
  | nil => rfl
  | cons c cs ih =>
    have hc : isSepCode c = false := h c (by simp)
    have ih' := ih (fun d hd => h d (by simp [hd]))
    simp [List.foldr_cons, ih', splitStep, hc]

lemma splitSeps_sepFree (l : JStr) (h : ∀ c ∈ l, isSepCode c = false) :
    splitSeps l = [l] := by
  unfold splitSeps
  rw [foldr_splitStep_sepFree l h]

lemma foldr_splitStep_snd_ne_nil (l : JStr) :
    (l.foldr splitStep (false, [[]])).2 ≠ [] := by
  induction l with
  | nil => simp
  | cons c cs ih =>
    rw [List.foldr_cons]
    rcases hst : cs.foldr splitStep (false, [[]]) with ⟨b, groups⟩
    rw [hst] at ih
    by_cases hc : isSepCode c = true
    · cases b with
      | true => simpa [splitStep, hc] using ih
      | false => simp [splitStep, hc]
    · cases groups with
      | nil => simp [splitStep, hc]
      | cons g gs => simp [splitStep, hc]

lemma foldr_splitStep_chunks (l : JStr) :
    ∀ w ∈ (l.foldr splitStep (false, [[]])).2, ∀ c ∈ w,
      isSepCode c = false := by
  induction l with
  | nil => simp
  | cons c cs ih =>
    rw [List.foldr_cons]
    rcases hst : cs.foldr splitStep (false, [[]]) with ⟨b, groups⟩
    rw [hst] at ih
    intro w hw d hd
    by_cases hc : isSepCode c = true
    · cases b with
      | true =>
        simp only [splitStep, hc, if_true] at hw
        exact ih w hw d hd
      | false =>
        simp [splitStep, hc] at hw
        rcases hw with rfl | hw
        · simp at hd
        · exact ih w (by simp [hw]) d hd
    · cases groups with
      | nil =>
        simp [splitStep, hc] at hw
        subst hw
        simp only [List.mem_singleton] at hd
        subst hd
        simpa using hc
      | cons g gs =>
        simp [splitStep, hc] at hw
        rcases hw with rfl | hw
        · simp only [List.mem_cons] at hd
          rcases hd with rfl | hd
          · simpa using hc
          · exact ih g (by simp) d hd
        · exact ih w (by simp [hw]) d hd

lemma splitSeps_chunks (l : JStr) :
    ∀ w ∈ splitSeps l, ∀ c ∈ w, isSepCode c = false :=
  foldr_splitStep_chunks l

lemma splitSeps_head_of_not_sep (d : Nat) (l : JStr)
    (hd : isSepCode d = false) :
    ∃ w ws, splitSeps (d :: l) = (d :: w) :: ws := by
  unfold splitSeps
  rw [List.foldr_cons]
  rcases hst : l.foldr splitStep (false, [[]]) with ⟨b, groups⟩
  have hne := foldr_splitStep_snd_ne_nil l
  rw [hst] at hne
  cases groups with
  | nil => exact absurd rfl hne
  | cons g gs =>
    refine ⟨g, gs, ?_⟩
    simp [splitStep, hd]

lemma capitalizeWord_sepFree (w : JStr)
    (h : ∀ c ∈ w, isSepCode c = false) :
    ∀ c ∈ capitalizeWord w, isSepCode c = false := by
  cases w with
  | nil => simp [capitalizeWord]
  | cons a as =>
    intro c hc
    simp only [capitalizeWord, List.mem_cons] at hc
    rcases hc with rfl | hc
    · exact isSepCode_upperCode a (h a (by simp))
    · exact h c (by simp [hc])

lemma toCamelCase_sepFree (s : JStr) :
    ∀ c ∈ toCamelCase s, isSepCode c = false := by
  unfold toCamelCase
  rcases hsp : splitSeps (jsToLower (jsTrim s)) with _ | ⟨w, ws⟩
  · simp
  · intro c hc
    simp only [List.mem_append] at hc
    rcases hc with hc | hc
    · exact splitSeps_chunks _ _ (by rw [hsp]; simp) c hc
    · rcases List.mem_flatten.mp hc with ⟨w2, hw2, hcw2⟩
      rcases List.mem_map.mp hw2 with ⟨w0, hw0, rfl⟩
      exact capitalizeWord_sepFree w0
        (splitSeps_chunks _ _ (by rw [hsp]; simp [hw0])) c hcw2

lemma toPascalCase_sepFree (s : JStr) :
    ∀ c ∈ toPascalCase s, isSepCode c = false := by
  unfold toPascalCase
  intro c hc
  rcases List.mem_flatten.mp hc with ⟨w2, hw2, hcw2⟩
  rcases List.mem_map.mp hw2 with ⟨w0, hw0, rfl⟩
  exact capitalizeWord_sepFree w0 (splitSeps_chunks _ _ hw0) c hcw2

lemma toCamelCase_of_sepFree (y : JStr)
    (h : ∀ c ∈ y, isSepCode c = false) : toCamelCase y = jsToLower y := by
  unfold toCamelCase
  rw [jsTrim_of_sepFree y h,
    splitSeps_sepFree (jsToLower y)
      (fun c hc => by
        rcases List.mem_map.mp hc with ⟨d, hdm, rfl⟩
        exact isSepCode_lowerCode d (h d hdm))]
  simp

lemma toPascalCase_of_sepFree (y : JStr)
    (h : ∀ c ∈ y, isSepCode c = false) :
    toPascalCase y = capitalizeWord (jsToLower y) := by
  unfold toPascalCase
  rw [jsTrim_of_sepFree y h,
    splitSeps_sepFree (jsToLower y)
      (fun c hc => by
        rcases List.mem_map.mp hc with ⟨d, hdm, rfl⟩
        exact isSepCode_lowerCode d (h d hdm))]
  simp

lemma lowerCode_bounds (c : Nat)
    (h : 65 ≤ c ∧ c ≤ 90 ∨ 97 ≤ c ∧ c ≤ 122) :
    97 ≤ lowerCode c ∧ lowerCode c ≤ 122 := by
  unfold lowerCode
  split <;> omega

lemma upperCode_bounds (d : Nat) (h : 97 ≤ d ∧ d ≤ 122) :
    65 ≤ upperCode d ∧ upperCode d ≤ 90 := by
  unfold upperCode
  split <;> omega

lemma toCamelCase_head (s : JStr) (c : Nat) (rest : JStr)
    (h1 : jsTrim s = c :: rest) (h2 : isSepCode (lowerCode c) = false) :
    ∃ t, toCamelCase s = lowerCode c :: t := by
  unfold toCamelCase
  rw [h1]
  simp only [jsToLower, List.map_cons]
  obtain ⟨w, ws, hsp⟩ :=
    splitSeps_head_of_not_sep (lowerCode c) (rest.map lowerCode) h2
  rw [hsp]
  exact ⟨w ++ (ws.map capitalizeWord).flatten, rfl⟩

lemma toPascalCase_head (s : JStr) (c : Nat) (rest : JStr)
    (h1 : jsTrim s = c :: rest) (h2 : isSepCode (lowerCode c) = false) :
    ∃ t, toPascalCase s = upperCode (lowerCode c) :: t := by
  unfold toPascalCase
  rw [h1]
  simp only [jsToLower, List.map_cons]
  obtain ⟨w, ws, hsp⟩ :=
    splitSeps_head_of_not_sep (lowerCode c) (rest.map lowerCode) h2
  rw [hsp]
  exact ⟨w ++ ((ws.map capitalizeWord).flatten),
    by simp [capitalizeWord]⟩

/-- C5 counterexample: `toCamelCase` and `toPascalCase`
(`src/lib/helper/helperF.js`) are NOT idempotent — re-applying them to
`"hello world"` lowercases the whole identifier — and the first character
of `toCamelCase "-abc"` is `'A'` (code 65), an uppercase letter, because a
leading `-` separator produces an empty first token. -/
theorem namingDeriver_claim_counterexample :
    toCamelCase (toCamelCase (str "hello world")) ≠
      toCamelCase (str "hello world") ∧
    toPascalCase (toPascalCase (str "hello world")) ≠
      toPascalCase (str "hello world") ∧
    toCamelCase (str "-abc") = 65 :: str "bc" ∧ ¬ 97 ≤ 65 := by
  decide

/-- C5 (amended): `toCamelCase` and `toPascalCase` are pure functions (so
deterministic by construction); re-applying them lowercases the previous
result (`canonical ∘ canonical = lowercase ∘ canonical`), so they are
idempotent exactly on inputs whose derived form is already a single
lowercase token; and whenever the trimmed input starts with an ASCII
letter, the camel form starts with its lowercase (a code in 97..122) and
the Pascal form starts with its uppercase (a code in 65..90). -/
theorem namingDeriver_amended (s : JStr) (c : Nat) (rest : JStr)
    (h1 : jsTrim s = c :: rest)
    (h2 : 65 ≤ c ∧ c ≤ 90 ∨ 97 ≤ c ∧ c ≤ 122) :
    toCamelCase (toCamelCase s) = jsToLower (toCamelCase s) ∧
    toPascalCase (toPascalCase s) =
      capitalizeWord (jsToLower (toPascalCase s)) ∧
    (∃ t, toCamelCase s = lowerCode c :: t ∧
      97 ≤ lowerCode c ∧ lowerCode c ≤ 122) ∧
    (∃ t, toPascalCase s = upperCode (lowerCode c) :: t ∧
      65 ≤ upperCode (lowerCode c) ∧ upperCode (lowerCode c) ≤ 90) := by
  have hlb := lowerCode_bounds c h2
  have hsep : isSepCode (lowerCode c) = false :=
    isSepCode_eq_false_of_bounds _ (Or.inr hlb)
  refine ⟨toCamelCase_of_sepFree _ (toCamelCase_sepFree s),
    toPascalCase_of_sepFree _ (toPascalCase_sepFree s), ?_, ?_⟩
  · obtain ⟨t, ht⟩ := toCamelCase_head s c rest h1 hsep
    exact ⟨t, ht, hlb⟩
  · obtain ⟨t, ht⟩ := toPascalCase_head s c rest h1 hsep
    exact ⟨t, ht, upperCode_bounds _ hlb⟩

/-- Witness for `namingDeriver_amended` at the input `"Hello world"`. -/
theorem namingDeriver_amended_witness :
    (jsTrim (str "Hello world") = 72 :: str "ello world" ∧
      (65 ≤ 72 ∧ 72 ≤ 90 ∨ 97 ≤ 72 ∧ 72 ≤ 122)) ∧
    (toCamelCase (toCamelCase (str "Hello world")) =
        jsToLower (toCamelCase (str "Hello world")) ∧
      toPascalCase (toPascalCase (str "Hello world")) =
        capitalizeWord (jsToLower (toPascalCase (str "Hello world"))) ∧
      (∃ t, toCamelCase (str "Hello world") = lowerCode 72 :: t ∧
        97 ≤ lowerCode 72 ∧ lowerCode 72 ≤ 122) ∧
      (∃ t, toPascalCase (str "Hello world") =
          upperCode (lowerCode 72) :: t ∧
        65 ≤ upperCode (lowerCode 72) ∧ upperCode (lowerCode 72) ≤ 90)) :=
  ⟨⟨by decide, by decide⟩,
    namingDeriver_amended (str "Hello world") 72 (str "ello world")
      (by decide) (by decide)⟩

example : jsToString (.jarr []) = [] := by decide
example : jsToString (.jarr [.pnum 1, .pnull, .pnum 2]) = str "1,,2" := by
  decide

example : emailTest (str "a@b.c") = true := by decide
example : emailTest (str "a@b.c d") = false := by decide
example : emailTest (str "ab.c") = false := by decide
example : emailTest (str "a@bc") = false := by decide
example : emailTest (str "@b.c") = false := by decide
example : emailTest (str "a@.c") = false := by decide
example : emailTest (str "a@b.") = false := by decide

example :
    (validateData
      [(str "title", .string), (str "price", .number),
        (str "inStock", .boolean)]
      [(str "title", .jstr []), (str "price", .jstr (str "x")),
        (str "inStock", .jbool true)]
      (fun _ => false) (fun _ => .methods [])).1 =
    [.required (str "title"), .typeMismatch (str "price") .number] := by
  decide

lemma keys_snd_unique (fields : List (JStr × FieldTy)) (f : JStr)
    (a b : FieldTy) (h : (fields.map Prod.fst).Nodup)
    (ha : (f, a) ∈ fields) (hb : (f, b) ∈ fields) : a = b := by
  induction fields with
  | nil => simp at ha
  | cons p rest ih =>
    simp only [List.map_cons, List.nodup_cons] at h
    simp only [List.mem_cons] at ha hb
    rcases ha with rfl | ha
    · rcases hb with hb | hb
      · exact (Prod.mk.injEq _ _ _ _ ▸ hb).2.symm ▸ rfl
      · exact absurd (List.mem_map.mpr ⟨(f, b), hb, rfl⟩) h.1
    · rcases hb with rfl | hb
      · exact absurd (List.mem_map.mpr ⟨(f, a), ha, rfl⟩) h.1
      · exact ih h.2 ha hb

lemma requiredPart_cons (p : JStr × FieldTy) (rest : List (JStr × FieldTy))
    (data : List (JStr × JSVal)) :
    requiredPart (p :: rest) data =
      if reqFailB (getField data p.1) = true then
        VError.required p.1 :: requiredPart rest data
      else requiredPart rest data := by
  simp only [requiredPart, List.filterMap_cons]
  by_cases h : reqFailB (getField data p.1) = true <;> simp [h]

lemma typePart_cons (dOracle : JStr → Bool) (p : JStr × FieldTy)
    (rest : List (JStr × FieldTy)) (data : List (JStr × JSVal)) :
    typePart dOracle (p :: rest) data =
      if (hasTypeCheck p.2 && !reqFailB (getField data p.1) &&
          typeFailB dOracle p.2 (getField data p.1)) = true then
        VError.typeMismatch p.1 p.2 :: typePart dOracle rest data
      else typePart dOracle rest data := by
  simp only [typePart, List.filterMap_cons]
  by_cases h : (hasTypeCheck p.2 && !reqFailB (getField data p.1) &&
      typeFailB dOracle p.2 (getField data p.1)) = true <;> simp [h]

lemma filter_requiredPart_not_mem (fields : List (JStr × FieldTy))
    (data : List (JStr × JSVal)) (f : JStr)
    (h : f ∉ fields.map Prod.fst) :
    (requiredPart fields data).filter (fun e => errField e == f) = [] := by
  induction fields with
  | nil => rfl
  | cons p rest ih =>
    simp only [List.map_cons, List.mem_cons, not_or] at h
    rw [requiredPart_cons]
    by_cases hg : reqFailB (getField data p.1) = true
    · rw [if_pos hg]
      rw [List.filter_cons_of_neg]
      · exact ih h.2
      · simp only [errField, beq_iff_eq]
        exact fun hh => h.1 hh.symm
    · rw [if_neg hg]
      exact ih h.2

lemma filter_requiredPart_eq (fields : List (JStr × FieldTy))
    (data : List (JStr × JSVal)) (f : JStr) (ty : FieldTy)
    (h1 : (f, ty) ∈ fields) (h2 : (fields.map Prod.fst).Nodup)
    (h3 : reqFailB (getField data f) = true) :
    (requiredPart fields data).filter (fun e => errField e == f) =
      [VError.required f] := by
  induction fields with
  | nil => simp at h1
  | cons p rest ih =>
    simp only [List.map_cons, List.nodup_cons] at h2
    simp only [List.mem_cons] at h1
    rw [requiredPart_cons]
    rcases h1 with h1 | h1
    · subst h1
      rw [if_pos h3]
      rw [List.filter_cons_of_pos (by simp [errField])]
      rw [filter_requiredPart_not_mem rest data f h2.1]
    · have hne : p.1 ≠ f := by
        intro hpf
        exact h2.1 (List.mem_map.mpr ⟨(f, ty), h1, hpf.symm⟩)
      by_cases hg : reqFailB (getField data p.1) = true
      · rw [if_pos hg]
        rw [List.filter_cons_of_neg (by simp [errField, hne])]
        exact ih h1 h2.2
      · rw [if_neg hg]
        exact ih h1 h2.2

lemma filter_requiredPart_of_not_reqFail (fields : List (JStr × FieldTy))
    (data : List (JStr × JSVal)) (f : JStr)
    (h : reqFailB (getField data f) = false) :
    (requiredPart fields data).filter (fun e => errField e == f) = [] := by
  induction fields with
  | nil => rfl
  | cons p rest ih =>
    rw [requiredPart_cons]
    by_cases hpf : p.1 = f
    · rw [hpf, if_neg (by simp [h])]
      exact ih
    · by_cases hg : reqFailB (getField data p.1) = true
      · rw [if_pos hg]
        rw [List.filter_cons_of_neg (by simp [errField, hpf])]
        exact ih
      · rw [if_neg hg]
        exact ih

lemma filter_typePart_of_reqFail (dOracle : JStr → Bool)
    (fields : List (JStr × FieldTy)) (data : List (JStr × JSVal))
    (f : JStr) (h3 : reqFailB (getField data f) = true) :
    (typePart dOracle fields data).filter (fun e => errField e == f) =
      [] := by
  induction fields with
  | nil => rfl
  | cons p rest ih =>
    rw [typePart_cons]
    by_cases hpf : p.1 = f
    · rw [hpf, if_neg (by simp [h3])]
      exact ih
    · by_cases hg : (hasTypeCheck p.2 && !reqFailB (getField data p.1) &&
          typeFailB dOracle p.2 (getField data p.1)) = true
      · rw [if_pos hg]
        rw [List.filter_cons_of_neg (by simp [errField, hpf])]
        exact ih
      · rw [if_neg hg]
        exact ih

lemma filter_emailPart_of_reqFail (eOracle : JStr → EmailLookup)
    (data : List (JStr × JSVal)) (l : List (JStr × FieldTy)) (f : JStr)
    (h3 : reqFailB (getField data f) = true) :
    ((emailPart eOracle data l).1).filter (fun e => errField e == f) =
      [] := by
  induction l with
  | nil => rfl
  | cons p rest ih =>
    obtain ⟨g, t⟩ := p
    simp only [emailPart]
    by_cases hgf : g = f
    · subst hgf
      rcases hv : getField data g with _ | _ | s | _ | _ | _ | _ | _ | _ <;>
        simp only [hv] <;> try exact ih
      have hblank : (jsTrim s).isEmpty = true := by
        rw [hv] at h3
        simpa [reqFailB, jsToString] using h3
      rw [if_neg (by simp [hblank])]
      exact ih
    · rcases hv : getField data g with _ | _ | s | _ | _ | _ | _ | _ | _ <;>
        simp only [] <;> try exact ih
      by_cases hguard : (!(jsTrim s).isEmpty && emailTest s) = true
      · rw [if_pos hguard]
        rcases eOracle s with ms | _
        · by_cases hms : ms.isEmpty
          · simp only [hms]
            simpa using ih
          · simp only []
            rw [if_pos (by simpa using hms)]
            rw [List.filter_cons_of_neg (by simp [errField, hgf])]
            exact ih
        · simpa using ih
      · rw [if_neg hguard]
        exact ih

lemma mem_requiredPart_shape (fields : List (JStr × FieldTy))
    (data : List (JStr × JSVal)) (e : VError)
    (h : e ∈ requiredPart fields data) : ∃ g, e = VError.required g := by
  rcases List.mem_filterMap.mp h with ⟨p, _, hp⟩
  split at hp
  · exact ⟨p.1, (Option.some_inj.mp hp).symm⟩
  · simp at hp

lemma mem_emailPart_shape (eOracle : JStr → EmailLookup)
    (data : List (JStr × JSVal)) (l : List (JStr × FieldTy)) (e : VError)
    (h : e ∈ (emailPart eOracle data l).1) :
    ∃ g, e = VError.emailInUse g := by
  induction l with
  | nil => simp [emailPart] at h
  | cons p rest ih =>
    obtain ⟨g, t⟩ := p
    simp only [emailPart] at h
    rcases hv : getField data g with _ | _ | s | _ | _ | _ | _ | _ | _ <;>
        simp only [hv] at h <;> try exact ih h
    by_cases hguard : (!(jsTrim s).isEmpty && emailTest s) = true
    · rw [if_pos hguard] at h
      rcases ho : eOracle s with ms | _ <;> simp only [ho] at h
      · by_cases hms : ms.isEmpty = true
        · simp [hms] at h
          exact ih h
        · have hms2 : ms.isEmpty = false := by simpa using hms
          simp [hms2] at h
          rcases h with rfl | h
          · exact ⟨g, rfl⟩
          · exact ih h
      · exact ih h
    · rw [if_neg hguard] at h
      exact ih h

lemma reqFail_false_of_typeMismatch_mem (fields : List (JStr × FieldTy))
    (data : List (JStr × JSVal)) (dOracle : JStr → Bool)
    (eOracle : JStr → EmailLookup) (g : JStr) (t : FieldTy)
    (h : VError.typeMismatch g t ∈
      (validateData fields data dOracle eOracle).1) :
    reqFailB (getField data g) = false := by
  simp only [validateData, List.mem_append] at h
  rcases h with (h | h) | h
  · rcases mem_requiredPart_shape _ _ _ h with ⟨g2, hg⟩
    simp at hg
  · rcases List.mem_filterMap.mp h with ⟨p, hmem, hp⟩
    split at hp
    · next hguard =>
      have heq := Option.some_inj.mp hp
      injection heq with hf ht
      subst hf
      simp only [Bool.and_eq_true, Bool.not_eq_true'] at hguard
      exact hguard.1.2
    · simp at hp
  · rcases mem_emailPart_shape _ _ _ _ h with ⟨g2, hg⟩
    simp at hg

lemma required_mem_requiredPart (fields : List (JStr × FieldTy))
    (data : List (JStr × JSVal)) (f : JStr) (ty : FieldTy)
    (h1 : (f, ty) ∈ fields) (h3 : reqFailB (getField data f) = true) :
    VError.required f ∈ requiredPart fields data :=
  List.mem_filterMap.mpr ⟨(f, ty), h1, by simp [h3]⟩

lemma emailTest_wsFree (s : JStr) (h : emailTest s = true) :
    ∀ c ∈ s, isWsCode c = false := by
  simp only [emailTest, Bool.and_eq_true, Bool.not_eq_true',
    List.any_eq_false] at h
  intro c hc
  have := h.1 c hc
  simpa using this

lemma emailTest_ne_nil (s : JStr) (h : emailTest s = true) : s ≠ [] := by
  intro hs
  rw [hs] at h
  exact absurd h (by decide)

lemma jsTrim_of_wsFree (l : JStr) (h : ∀ c ∈ l, isWsCode c = false) :
    jsTrim l = l := by
  unfold jsTrim
  rw [dropWhile_isWsCode_of_forall l h,
    dropWhile_isWsCode_of_forall l.reverse
      (fun c hc => h c (List.mem_reverse.mp hc)),
    List.reverse_reverse]

lemma jsTrim_isEmpty_eq_false_of_emailTest (s : JStr)
    (h : emailTest s = true) : (jsTrim s).isEmpty = false := by
  rw [jsTrim_of_wsFree s (emailTest_wsFree s h)]
  cases s with
  | nil => exact absurd h (by decide)
  | cons c cs => rfl

lemma reqFailB_email_string (s : JStr) (h : emailTest s = true) :
    reqFailB (JSVal.jstr s) = false := by
  have ht := jsTrim_of_wsFree s (emailTest_wsFree s h)
  simp only [reqFailB, jsToString, ht]
  cases s with
  | nil => exact absurd h (by decide)
  | cons c cs => rfl

lemma filter_typePart_email_ok (dOracle : JStr → Bool)
    (fields : List (JStr × FieldTy)) (data : List (JStr × JSVal))
    (f : JStr) (s : JStr)
    (huniq : ∀ t, (f, t) ∈ fields → t = FieldTy.email)
    (hv : getField data f = JSVal.jstr s) (hfmt : emailTest s = true) :
    (typePart dOracle fields data).filter (fun e => errField e == f) =
      [] := by
  induction fields with
  | nil => rfl
  | cons p rest ih =>
    have huniq2 : ∀ t, (f, t) ∈ rest → t = FieldTy.email :=
      fun t htm => huniq t (List.mem_cons_of_mem _ htm)
    rw [typePart_cons]
    by_cases hpf : p.1 = f
    · have hpe : p.2 = FieldTy.email := by
        apply huniq p.2
        have : p = (f, p.2) := by
          rw [← hpf]
        rw [← this]
        exact List.mem_cons_self _ _
      rw [if_neg]
      · exact ih huniq2
      · rw [hpf, hpe, hv]
        simp [typeFailB, hfmt]
    · by_cases hg : (hasTypeCheck p.2 && !reqFailB (getField data p.1) &&
          typeFailB dOracle p.2 (getField data p.1)) = true
      · rw [if_pos hg]
        rw [List.filter_cons_of_neg (by simp [errField, hpf])]
        exact ih huniq2
      · rw [if_neg hg]
        exact ih huniq2

lemma filter_emailPart_failure (eOracle : JStr → EmailLookup)
    (data : List (JStr × JSVal)) (l : List (JStr × FieldTy))
    (f : JStr) (s : JStr)
    (hv : getField data f = JSVal.jstr s)
    (ho : eOracle s = EmailLookup.failure) :
    ((emailPart eOracle data l).1).filter (fun e => errField e == f) =
      [] := by
  induction l with
  | nil => rfl
  | cons p rest ih =>
    obtain ⟨g, t⟩ := p
    simp only [emailPart]
    by_cases hgf : g = f
    · subst hgf
      rw [hv]
      simp only []
      by_cases hguard : (!(jsTrim s).isEmpty && emailTest s) = true
      · rw [if_pos hguard, ho]
        exact ih
      · rw [if_neg hguard]
        exact ih
    · rcases hw : getField data g with _ | _ | s2 | _ | _ | _ | _ | _ | _ <;>
          simp only [hw] <;> try exact ih
      by_cases hguard : (!(jsTrim s2).isEmpty && emailTest s2) = true
      · rw [if_pos hguard]
        rcases ho2 : eOracle s2 with ms | _ <;> simp only []
        · by_cases hms : ms.isEmpty = true
          · rw [if_neg (by simp [hms])]
            exact ih
          · rw [if_pos (by simp at hms; simp [hms])]
            rw [List.filter_cons_of_neg (by simp [errField, hgf])]
            exact ih
        · exact ih
      · rw [if_neg hguard]
        exact ih

lemma mem_logs_emailPart (eOracle : JStr → EmailLookup)
    (data : List (JStr × JSVal)) (l : List (JStr × FieldTy))
    (f : JStr) (t : FieldTy) (s : JStr)
    (hmem : (f, t) ∈ l) (hv : getField data f = JSVal.jstr s)
    (hguard : (!(jsTrim s).isEmpty && emailTest s) = true)
    (ho : eOracle s = EmailLookup.failure) :
    f ∈ (emailPart eOracle data l).2 := by
  induction l with
  | nil => simp at hmem
  | cons p rest ih =>
    obtain ⟨g, t2⟩ := p
    simp only [List.mem_cons] at hmem
    rcases hmem with heq | hmem
    · injection heq with hf ht
      subst hf
      simp only [emailPart, hv]
      rw [if_pos hguard, ho]
      exact List.mem_cons_self _ _
    · have htail := ih hmem
      simp only [emailPart]
      rcases hw : getField data g with _ | _ | s2 | _ | _ | _ | _ | _ | _ <;>
          simp only [hw] <;> try exact htail
      by_cases hguard2 : (!(jsTrim s2).isEmpty && emailTest s2) = true
      · rw [if_pos hguard2]
        rcases ho2 : eOracle s2 with ms | _ <;> simp only []
        · by_cases hms : ms.isEmpty = true
          · rw [if_neg (by simp [hms])]
            exact htail
          · rw [if_pos (by simp at hms; simp [hms])]
            exact htail
        · exact List.mem_cons_of_mem _ htail
      · rw [if_neg hguard2]
        exact htail

/-- C4: in the generated `validate(data)` (`generateValidationModule`), a
field that is absent, `null`, or blank yields exactly one error for that
field — the "required" error — and never additionally a type/format error;
moreover every type-mismatch error in the output comes from a field that
passed the required check (the type-check guard is the exact negation of
the required condition). -/
theorem validate_required_shadows_type (fields : List (JStr × FieldTy))
    (data : List (JStr × JSVal)) (dOracle : JStr → Bool)
    (eOracle : JStr → EmailLookup) (f : JStr) (ty : FieldTy)
    (h1 : (f, ty) ∈ fields)
    (h2 : (fields.map Prod.fst).Nodup)
    (h3 : reqFailB (getField data f) = true) :
    (validateData fields data dOracle eOracle).1.filter
        (fun e => errField e == f) = [VError.required f] ∧
    ∀ g t, VError.typeMismatch g t ∈
        (validateData fields data dOracle eOracle).1 →
      reqFailB (getField data g) = false := by
  constructor
  · simp only [validateData, List.filter_append]
    rw [filter_requiredPart_eq fields data f ty h1 h2 h3,
      filter_typePart_of_reqFail dOracle fields data f h3,
      filter_emailPart_of_reqFail eOracle data _ f h3]
    simp
  · exact fun g t h =>
      reqFail_false_of_typeMismatch_mem fields data dOracle eOracle g t h

/-- Witness for `validate_required_shadows_type`: a schema with a `string`
field `title` and a `number` field `price`, validated against an input
that omits `title`. -/
theorem validate_required_shadows_type_witness :
    ((str "title", FieldTy.string) ∈
        [(str "title", FieldTy.string), (str "price", FieldTy.number)] ∧
      (([(str "title", FieldTy.string),
          (str "price", FieldTy.number)].map Prod.fst).Nodup) ∧
      reqFailB (getField [(str "price", JSVal.jnum 3)] (str "title")) =
        true) ∧
    (validateData
        [(str "title", FieldTy.string), (str "price", FieldTy.number)]
        [(str "price", JSVal.jnum 3)] (fun _ => false)
        (fun _ => EmailLookup.methods [])).1.filter
      (fun e => errField e == str "title") =
        [VError.required (str "title")] :=
  ⟨⟨by decide, by decide, by decide⟩,
    (validate_required_shadows_type
      [(str "title", FieldTy.string), (str "price", FieldTy.number)]
      [(str "price", JSVal.jnum 3)] (fun _ => false)
      (fun _ => EmailLookup.methods []) (str "title") FieldTy.string
      (by decide) (by decide) (by decide)).1⟩

/-- C7: for an `email` field whose value passes the format regex, the
generated validator runs the asynchronous existence check; when that check
itself fails (rejected promise), the failure is only logged
(`console.error`) and no error is added, so the input still validates with
no error at all for that field. -/
theorem validate_email_failure_nonblocking (fields : List (JStr × FieldTy))
    (data : List (JStr × JSVal)) (dOracle : JStr → Bool)
    (eOracle : JStr → EmailLookup) (f : JStr) (s : JStr)
    (h1 : (f, FieldTy.email) ∈ fields)
    (h2 : (fields.map Prod.fst).Nodup)
    (hv : getField data f = JSVal.jstr s)
    (hfmt : emailTest s = true)
    (ho : eOracle s = EmailLookup.failure) :
    f ∈ (validateData fields data dOracle eOracle).2 ∧
    (validateData fields data dOracle eOracle).1.filter
      (fun e => errField e == f) = [] := by
  have hguard : (!(jsTrim s).isEmpty && emailTest s) = true := by
    rw [jsTrim_isEmpty_eq_false_of_emailTest s hfmt, hfmt]
    rfl
  constructor
  · simp only [validateData]
    apply mem_logs_emailPart eOracle data _ f FieldTy.email s _ hv hguard ho
    exact List.mem_filter.mpr ⟨h1, rfl⟩
  · simp only [validateData, List.filter_append]
    rw [filter_requiredPart_of_not_reqFail fields data f
        (by rw [hv]; exact reqFailB_email_string s hfmt),
      filter_typePart_email_ok dOracle fields data f s
        (fun t htm => keys_snd_unique fields f t FieldTy.email h2 htm h1)
        hv hfmt,
      filter_emailPart_failure eOracle data _ f s hv ho]
    simp

/-- Witness for `validate_email_failure_nonblocking`: one `email` field
`contact` valued `"a@b.c"`, with the existence-check service failing. -/
theorem validate_email_failure_nonblocking_witness :
    ((str "contact", FieldTy.email) ∈ [(str "contact", FieldTy.email)] ∧
      (([(str "contact", FieldTy.email)].map Prod.fst).Nodup) ∧
      getField [(str "contact", JSVal.jstr (str "a@b.c"))] (str "contact") =
        JSVal.jstr (str "a@b.c") ∧
      emailTest (str "a@b.c") = true) ∧
    str "contact" ∈
      (validateData [(str "contact", FieldTy.email)]
        [(str "contact", JSVal.jstr (str "a@b.c"))] (fun _ => false)
        (fun _ => EmailLookup.failure)).2 ∧
    (validateData [(str "contact", FieldTy.email)]
        [(str "contact", JSVal.jstr (str "a@b.c"))] (fun _ => false)
        (fun _ => EmailLookup.failure)).1.filter
      (fun e => errField e == str "contact") = [] :=
  ⟨⟨by decide, by decide, by decide, by decide⟩,
    validate_email_failure_nonblocking [(str "contact", FieldTy.email)]
      [(str "contact", JSVal.jstr (str "a@b.c"))] (fun _ => false)
      (fun _ => EmailLookup.failure) (str "contact") (str "a@b.c")
      (by decide) (by decide) (by decide) (by decide) rfl⟩

/-- C9: an `array` field whose value is the empty array `[]` is reported
as "required" by the generated validator (because `String([])` is the
empty string, so the blank test fires), and no type-mismatch error is
produced for it, even though the value is present and is an array. -/
theorem validate_empty_array_reported_required
    (fields : List (JStr × FieldTy)) (data : List (JStr × JSVal))
    (dOracle : JStr → Bool) (eOracle : JStr → EmailLookup) (f : JStr)
    (h1 : (f, FieldTy.array) ∈ fields)
    (h3 : getField data f = JSVal.jarr []) :
    VError.required f ∈ (validateData fields data dOracle eOracle).1 ∧
    ∀ t, VError.typeMismatch f t ∉
      (validateData fields data dOracle eOracle).1 := by
  have hreq : reqFailB (getField data f) = true := by
    rw [h3]
    decide
  constructor
  · simp only [validateData]
    exact List.mem_append_left _ (List.mem_append_left _
      (required_mem_requiredPart fields data f FieldTy.array h1 hreq))
  · intro t hmem
    have hf :=
      reqFail_false_of_typeMismatch_mem fields data dOracle eOracle f t hmem
    rw [hreq] at hf
    cases hf

/-- Witness for `validate_empty_array_reported_required`: schema with an
`array` field `tags`, input `{tags: []}`. -/
theorem validate_empty_array_reported_required_witness :
    ((str "tags", FieldTy.array) ∈ [(str "tags", FieldTy.array)] ∧
      getField [(str "tags", JSVal.jarr [])] (str "tags") =
        JSVal.jarr []) ∧
    VError.required (str "tags") ∈
      (validateData [(str "tags", FieldTy.array)]
        [(str "tags", JSVal.jarr [])] (fun _ => false)
        (fun _ => EmailLookup.methods [])).1 :=
  ⟨⟨by decide, by decide⟩,
    (validate_empty_array_reported_required [(str "tags", FieldTy.array)]
      [(str "tags", JSVal.jarr [])] (fun _ => false)
      (fun _ => EmailLookup.methods []) (str "tags") (by decide)
      (by decide)).1⟩

/-- C3: `hasMore` is true exactly when the number of returned documents
equals the requested page size, for both `fetchInitialPage` and
`fetchNextPage`; in particular a backend holding exactly `pageSize`
documents yields `hasMore = true` even though the page already contains
every document. -/
theorem fetch_hasMore_iff_full_page {Doc : Type}
    (backend afterCursor : List Doc) (pageSize : Nat)
    (st : PageState Doc) :
    ((fetchInitialPage backend pageSize st).hasMore = true ↔
      (backend.take pageSize).length = pageSize) ∧
    (backend.length = pageSize →
      (fetchInitialPage backend pageSize st).hasMore = true ∧
      (fetchInitialPage backend pageSize st).items = backend) ∧
    (st.lastVisible.isSome → st.hasMore = true →
      ((fetchNextPage afterCursor st).hasMore = true ↔
        (afterCursor.take st.pageSize).length = st.pageSize)) := by
  refine ⟨?_, ?_, ?_⟩
  · simp [fetchInitialPage]
  · intro hlen
    constructor
    · simp [fetchInitialPage, List.length_take, hlen]
    · simp only [fetchInitialPage]
      exact List.take_of_length_le (le_of_eq hlen)
  · intro hcur hmore
    have hnone : st.lastVisible.isNone = false := by
      cases hv : st.lastVisible with
      | none => rw [hv] at hcur; simp at hcur
      | some d => rfl
    simp [fetchNextPage, hnone, hmore]

/-- Witness for `fetch_hasMore_iff_full_page`: a backend of exactly three
documents fetched with page size three reports `hasMore = true` although
nothing is left, and a next-page fetch behaves the same way. -/
theorem fetch_hasMore_iff_full_page_witness :
    (([10, 20, 30] : List Nat).length = 3 ∧
      (PageState.mk ([1] : List Nat) (some 1) true 2).lastVisible.isSome ∧
      (PageState.mk ([1] : List Nat) (some 1) true 2).hasMore = true) ∧
    ((fetchInitialPage [10, 20, 30] 3
        (PageState.mk ([] : List Nat) none false 3)).hasMore = true ↔
      (([10, 20, 30] : List Nat).take 3).length = 3) ∧
    ((fetchInitialPage [10, 20, 30] 3
        (PageState.mk ([] : List Nat) none false 3)).hasMore = true ∧
      (fetchInitialPage [10, 20, 30] 3
        (PageState.mk ([] : List Nat) none false 3)).items = [10, 20, 30]) ∧
    ((fetchNextPage [2, 3] (PageState.mk ([1] : List Nat) (some 1) true 2)
        ).hasMore = true ↔
      (([2, 3] : List Nat).take 2).length = 2) := by
  refine ⟨⟨by decide, by decide, by decide⟩, ?_⟩
  have h := fetch_hasMore_iff_full_page [10, 20, 30] [2, 3] 3
    (PageState.mk ([] : List Nat) none false 3)
  have h2 := fetch_hasMore_iff_full_page ([] : List Nat) [2, 3] 3
    (PageState.mk ([1] : List Nat) (some 1) true 2)
  exact ⟨h.1, h.2.1 (by decide), h2.2.2 (by decide) (by decide)⟩

/-- C1 counterexample: in the basic generator variant, `get(id)` on a
missing document THROWS (`Error("Document with ID  not found")`) instead
of returning the null not-found signal, contradicting the claim for that
generated `get`. -/
theorem get_notFound_claim_counterexample :
    (get_basic Nat (Except.ok none) none).result =
      Except.error notFoundMsg ∧
    (get_basic Nat (Except.ok none) none).errorSlot =
      some notFoundMsg :=
  ⟨rfl, rfl⟩

/-- C1 (amended): the advanced variant's `get(id)` returns the null
not-found signal without throwing and without touching the error slot,
and propagates store errors; the basic variant's `get(id)` instead throws
the not-found error (while likewise propagating store errors). -/
theorem get_notFound_amended {Doc : Type} (slot : Option String)
    (e : String) (d : Doc) :
    (get_advanced Doc (Except.ok none) slot).result =
      Except.ok none ∧
    (get_advanced Doc (Except.ok none) slot).errorSlot = slot ∧
    (get_advanced Doc (Except.error e) slot).result =
      Except.error e ∧
    (get_advanced Doc (Except.ok (some d)) slot).result =
      Except.ok (some d) ∧
    (get_basic Doc (Except.ok none) slot).result =
      Except.error notFoundMsg ∧
    (get_basic Doc (Except.error e) slot).result =
      Except.error e :=
  ⟨rfl, rfl, rfl, rfl, rfl, rfl⟩

lemma mem_jsSetDedup (l : List String) (x : String) :
    ∀ seen, x ∈ jsSetDedup seen l ↔ x ∈ l ∧ x ∉ seen := by
  induction l with
  | nil => intro seen; simp [jsSetDedup]
  | cons a as ih =>
    intro seen
    by_cases ha : a ∈ seen
    · rw [jsSetDedup, if_pos ha, ih seen]
      constructor
      · rintro ⟨h1, h2⟩
        exact ⟨List.mem_cons_of_mem _ h1, h2⟩
      · rintro ⟨h1, h2⟩
        rcases List.mem_cons.mp h1 with rfl | h1
        · exact absurd ha h2
        · exact ⟨h1, h2⟩
    · rw [jsSetDedup, if_neg ha]
      constructor
      · intro hx
        rcases List.mem_cons.mp hx with rfl | hx
        · exact ⟨List.mem_cons_self _ _, ha⟩
        · rcases (ih (a :: seen)).mp hx with ⟨h1, h2⟩
          simp only [List.mem_cons, not_or] at h2
          exact ⟨List.mem_cons_of_mem _ h1, h2.2⟩
      · rintro ⟨h1, h2⟩
        rcases List.mem_cons.mp h1 with rfl | h1
        · exact List.mem_cons_self _ _
        · by_cases hxa : x = a
          · subst hxa
            exact List.mem_cons_self _ _
          · exact List.mem_cons_of_mem _
              ((ih (a :: seen)).mpr ⟨h1, by simp [hxa, h2]⟩)

lemma authRoleActionsEmitted_iff (roles : List String)
    (authCols : List JStr) (col : JStr) :
    authRoleActionsEmitted roles authCols col = true ↔
      roles ≠ [] ∧ col ∈ authCols := by
  unfold authRoleActionsEmitted
  by_cases hr : roles.length > 0
  · rw [if_pos hr]
    by_cases hcol : col ∈ authCols
    · have hc : authCols.contains col = true := by simpa using hcol
      simp [hc, hcol, List.ne_nil_of_length_pos hr]
    · have hc : authCols.contains col = false := by simpa using hcol
      simp [hc, hcol]
  · rw [if_neg hr]
    simp only [gt_iff_lt, not_lt, Nat.le_zero, List.length_eq_zero] at hr
    simp [hr]

/-- C2 counterexample: in the basic generator variant, `assignRoles`
called by an admin OVERWRITES the user's roles array with the argument —
the existing role `"editor"` is lost, so the operation does not compute
the set-union claimed. -/
theorem roleActions_claim_counterexample :
    assignRoles_basic (some ⟨some "u1", some ["admin"]⟩)
      ["editor"] ["viewer"] = Except.ok ["viewer"] ∧
    "editor" ∈ (["editor"] : List String) ∧
    "editor" ∉ (["viewer"] : List String) := by
  refine ⟨?_, by decide, by decide⟩
  rfl

/-- C2 (amended): in the ADVANCED generator variant `assignRoles` computes
the set-union of the user's existing roles with the given roles and
`revokeRoles` the set-difference, both gated on the caller holding the
`admin` role (a failing admin check propagates as the operation's error,
and a successful operation implies the check passed); the actions are
emitted exactly when roles are configured and the collection is
identity-like.  In the BASIC variant `assignRoles` instead overwrites the
roles array with the given roles (still admin-gated). -/
theorem roleActions_amended (cu : Option CurrentUser)
    (rolesField : Option (List String)) (toAssign toRevoke : List String)
    (x e : String) (roles : List String) (authCols : List JStr)
    (col : JStr) :
    (checkRole_advanced cu "admin" = Except.ok () →
      assignRoles_advanced cu (some rolesField) toAssign =
        Except.ok (jsSetDedup [] (rolesField.getD [] ++ toAssign)) ∧
      (x ∈ jsSetDedup [] (rolesField.getD [] ++ toAssign) ↔
        x ∈ rolesField.getD [] ∨ x ∈ toAssign)) ∧
    (checkRole_advanced cu "admin" = Except.ok () →
      revokeRoles_advanced cu (some rolesField) toRevoke =
        Except.ok
          ((rolesField.getD []).filter (fun r => !toRevoke.contains r)) ∧
      (x ∈ (rolesField.getD []).filter (fun r => !toRevoke.contains r) ↔
        x ∈ rolesField.getD [] ∧ x ∉ toRevoke)) ∧
    (checkRole_advanced cu "admin" = Except.error e →
      assignRoles_advanced cu (some rolesField) toAssign =
        Except.error e ∧
      revokeRoles_advanced cu (some rolesField) toRevoke =
        Except.error e) ∧
    (∀ out, assignRoles_advanced cu (some rolesField) toAssign =
        Except.ok out →
      checkRole_advanced cu "admin" = Except.ok ()) ∧
    (∀ out, assignRoles_basic cu (rolesField.getD []) toAssign =
        Except.ok out →
      checkRole_basic cu "admin" = Except.ok () ∧ out = toAssign) ∧
    (authRoleActionsEmitted roles authCols col = true ↔
      roles ≠ [] ∧ col ∈ authCols) := by
  refine ⟨?_, ?_, ?_, ?_, ?_, authRoleActionsEmitted_iff roles authCols col⟩
  · intro hok
    refine ⟨by simp [assignRoles_advanced, hok], ?_⟩
    rw [mem_jsSetDedup]
    simp [List.mem_append]
  · intro hok
    refine ⟨by simp [revokeRoles_advanced, hok], ?_⟩
    rw [List.mem_filter]
    constructor
    · rintro ⟨h1, h2⟩
      refine ⟨h1, ?_⟩
      intro hmem
      rw [(by simpa using hmem : toRevoke.contains x = true)] at h2
      simp at h2
    · rintro ⟨h1, h2⟩
      refine ⟨h1, ?_⟩
      simpa using h2
  · intro herr
    exact ⟨by simp [assignRoles_advanced, herr],
      by simp [revokeRoles_advanced, herr]⟩
  · intro out hout
    rcases hchk : checkRole_advanced cu "admin" with e2 | u
    · rw [assignRoles_advanced, hchk] at hout
      simp at hout
    · rfl
  · intro out hout
    rcases hchk : checkRole_basic cu "admin" with e2 | u
    · rw [assignRoles_basic, hchk] at hout
      simp at hout
    · rw [assignRoles_basic, hchk] at hout
      simp only [Except.ok.injEq] at hout
      exact ⟨rfl, hout.symm⟩

/-- Witness for `roleActions_amended`: an admin assigns `"viewer"` to a
user holding `"editor"` (union keeps both) and revokes `"editor"` from a
user holding `"editor"` and `"viewer"` (difference drops it). -/
theorem roleActions_amended_witness :
    (checkRole_advanced (some ⟨some "u1", some ["admin"]⟩) "admin" =
        Except.ok () →
      assignRoles_advanced (some ⟨some "u1", some ["admin"]⟩)
          (some (some ["editor"])) ["viewer"] =
        Except.ok (jsSetDedup []
          ((some ["editor"] : Option (List String)).getD [] ++
            ["viewer"])) ∧
      ("editor" ∈ jsSetDedup []
          ((some ["editor"] : Option (List String)).getD [] ++
            ["viewer"]) ↔
        "editor" ∈ (some ["editor"] : Option (List String)).getD [] ∨
          "editor" ∈ (["viewer"] : List String))) ∧
    (checkRole_advanced (some ⟨some "u1", some ["admin"]⟩) "admin" =
        Except.ok () →
      revokeRoles_advanced (some ⟨some "u1", some ["admin"]⟩)
          (some (some ["editor"])) ["editor"] =
        Except.ok (((some ["editor"] : Option (List String)).getD
          []).filter (fun r => !(["editor"] : List String).contains r)) ∧
      ("editor" ∈ ((some ["editor"] : Option (List String)).getD
          []).filter (fun r => !(["editor"] : List String).contains r) ↔
        "editor" ∈ (some ["editor"] : Option (List String)).getD [] ∧
          "editor" ∉ (["editor"] : List String))) ∧
    (checkRole_advanced (some ⟨some "u1", some ["admin"]⟩) "admin" =
        Except.error "boom" →
      assignRoles_advanced (some ⟨some "u1", some ["admin"]⟩)
          (some (some ["editor"])) ["viewer"] = Except.error "boom" ∧
      revokeRoles_advanced (some ⟨some "u1", some ["admin"]⟩)
          (some (some ["editor"])) ["editor"] = Except.error "boom") ∧
    (∀ out, assignRoles_advanced (some ⟨some "u1", some ["admin"]⟩)
        (some (some ["editor"])) ["viewer"] = Except.ok out →
      checkRole_advanced (some ⟨some "u1", some ["admin"]⟩) "admin" =
        Except.ok ()) ∧
    (∀ out, assignRoles_basic (some ⟨some "u1", some ["admin"]⟩)
        ((some ["editor"] : Option (List String)).getD []) ["viewer"] =
        Except.ok out →
      checkRole_basic (some ⟨some "u1", some ["admin"]⟩) "admin" =
        Except.ok () ∧ out = ["viewer"]) ∧
    (authRoleActionsEmitted ["admin", "user"] [str "users"] (str "users") =
        true ↔
      (["admin", "user"] : List String) ≠ [] ∧
        str "users" ∈ [str "users"]) :=
  roleActions_amended (some ⟨some "u1", some ["admin"]⟩)
    (some ["editor"]) ["viewer"] ["editor"] "editor" "boom"
    ["admin", "user"] [str "users"] (str "users")

lemma foldl_push_pairs (collections : List JStr) :
    ∀ init : List Route,
      collections.foldl
        (fun acc n => acc ++ [collectionCreateRoute n,
          collectionEditRoute n]) init =
      init ++ collections.flatMap
        (fun n => [collectionCreateRoute n, collectionEditRoute n]) := by
  induction collections with
  | nil => intro init; simp
  | cons c cs ih =>
    intro init
    rw [List.foldl_cons, ih]
    simp

/-- C6: the generated route table is exactly the ordered concatenation —
one home entry first (landing page iff the landing flag is set, home view
otherwise, which differ), then the authentication block iff both
`enableAuth` and `enableAuthViews`, then the admin block iff
`enableAdmin`, then one create/edit pair per collection in schema order
with paths `/<camel>/create` and `/<camel>/edit/:id` derived by the
naming deriver, then a single trailing catch-all redirecting to home. -/
theorem router_route_table_order (flags : RouterFlags)
    (collections : List JStr) :
    generateRoutes flags collections =
      [homeRoute flags.enableLanding] ++
      (if flags.enableAuth && flags.enableAuthViews then authRoutesList
        else []) ++
      (if flags.enableAdmin then adminRoutesList else []) ++
      collections.flatMap
        (fun n => [collectionCreateRoute n, collectionEditRoute n]) ++
      [catchAllRoute] ∧
    (homeRoute true).component =
      some (viewImport (str "LandingPage.vue")) ∧
    (homeRoute false).component =
      some (viewImport (str "HomeView.vue")) ∧
    homeRoute true ≠ homeRoute false ∧
    (homeRoute flags.enableLanding).path = str "/" ∧
    (∀ n, (collectionCreateRoute n).path =
        str "/" ++ toCamelCase n ++ str "/create" ∧
      (collectionEditRoute n).path =
        str "/" ++ toCamelCase n ++ str "/edit/:id") ∧
    catchAllRoute.redirect = some (str "/") := by
  refine ⟨?_, by decide, by decide, by decide, ?_, fun n => ⟨rfl, rfl⟩,
    rfl⟩
  · unfold generateRoutes
    by_cases hav : (flags.enableAuth && flags.enableAuthViews) = true <;>
      by_cases had : flags.enableAdmin = true <;>
        by_cases hce : collections.isEmpty = true <;>
          simp [hav, had, hce, foldl_push_pairs,
            List.isEmpty_iff.mp, List.append_assoc]
  · unfold homeRoute
    by_cases hl : flags.enableLanding = true <;> simp [hl]

lemma normalizeCollections_error (cs : List RawCollection)
    (h : ∃ c ∈ cs, rawNameFalsy c = true ∨ rawFieldsMissing c = true) :
    normalizeCollections cs = .error schemaErrorMsg := by
  induction cs with
  | nil => simp at h
  | cons c rest ih =>
    rcases h with ⟨d, hd, hbad⟩
    rcases List.mem_cons.mp hd with rfl | hd
    · rw [normalizeCollections, if_pos (by rcases hbad with hb | hb <;>
        simp [hb])]
    · by_cases hc : (rawNameFalsy c || rawFieldsMissing c) = true
      · rw [normalizeCollections, if_pos hc]
      · rw [normalizeCollections, if_neg hc, ih ⟨d, hd, hbad⟩]

lemma normalizeCollections_ok (cs : List RawCollection)
    (h : ∀ c ∈ cs, rawNameFalsy c = false ∧ rawFieldsMissing c = false) :
    normalizeCollections cs = .ok (cs.map procRaw) := by
  induction cs with
  | nil => rfl
  | cons c rest ih =>
    have hc := h c (by simp)
    rw [normalizeCollections, if_neg (by simp [hc.1, hc.2]),
      ih (fun d hd => h d (by simp [hd]))]
    rfl

/-- C8: normalization throws the schema error as soon as any raw entry
lacks a name or a fields map (an empty fields map is accepted, an absent
one is not), and on well-formed input it succeeds, dropping exactly the
entries whose derived canonical name is empty — every surviving
collection has a non-empty name. -/
theorem normalize_drops_empty_names (cs : List RawCollection) :
    ((∃ c ∈ cs, rawNameFalsy c = true ∨ rawFieldsMissing c = true) →
      processCollections cs = .error schemaErrorMsg) ∧
    ((∀ c ∈ cs, rawNameFalsy c = false ∧ rawFieldsMissing c = false) →
      processCollections cs =
        .ok ((cs.map procRaw).filter (fun p => !p.name.isEmpty)) ∧
      ∀ p ∈ (cs.map procRaw).filter (fun p => !p.name.isEmpty),
        p.name ≠ []) := by
  constructor
  · intro h
    unfold processCollections
    rw [normalizeCollections_error cs h]
  · intro h
    constructor
    · unfold processCollections
      rw [normalizeCollections_ok cs h]
    · intro p hp
      have := (List.mem_filter.mp hp).2
      simpa using this

/-- Witness for `normalize_drops_empty_names`: a list with a well-formed
`users` entry, an entry with an empty fields map (accepted), and an entry
named `"-"` whose canonical name is empty (dropped); and, inside the same
application, the error case for an entry lacking its fields map. -/
theorem normalize_drops_empty_names_witness :
    ((∀ c ∈ [RawCollection.mk (some (str "users"))
          (some [(str "email", FieldTy.email)]) none,
        RawCollection.mk (some (str "logs")) (some []) none,
        RawCollection.mk (some (str "-")) (some []) none],
      rawNameFalsy c = false ∧ rawFieldsMissing c = false) ∧
      (∃ c ∈ [RawCollection.mk (some (str "orders")) none none],
        rawNameFalsy c = true ∨ rawFieldsMissing c = true)) ∧
    processCollections
        [RawCollection.mk (some (str "users"))
          (some [(str "email", FieldTy.email)]) none,
        RawCollection.mk (some (str "logs")) (some []) none,
        RawCollection.mk (some (str "-")) (some []) none] =
      .ok [ProcessedCollection.mk (str "users")
          [(str "email", FieldTy.email)] (str "object"),
        ProcessedCollection.mk (str "logs") [] (str "object")] ∧
    processCollections [RawCollection.mk (some (str "orders")) none none] =
      .error schemaErrorMsg := by
  have hgood : ∀ c ∈ [RawCollection.mk (some (str "users"))
        (some [(str "email", FieldTy.email)]) none,
      RawCollection.mk (some (str "logs")) (some []) none,
      RawCollection.mk (some (str "-")) (some []) none],
      rawNameFalsy c = false ∧ rawFieldsMissing c = false := by decide
  have hbad : ∃ c ∈ [RawCollection.mk (some (str "orders")) none none],
      rawNameFalsy c = true ∨ rawFieldsMissing c = true := by
    refine ⟨RawCollection.mk (some (str "orders")) none none, ?_, ?_⟩
    · simp
    · decide
  refine ⟨⟨hgood, hbad⟩, ?_, ?_⟩
  · have h := (normalize_drops_empty_names
      [RawCollection.mk (some (str "users"))
        (some [(str "email", FieldTy.email)]) none,
      RawCollection.mk (some (str "logs")) (some []) none,
      RawCollection.mk (some (str "-")) (some []) none]).2 hgood
    rw [h.1]
    simp only [Except.ok.injEq]
    decide
  · exact (normalize_drops_empty_names
      [RawCollection.mk (some (str "orders")) none none]).1 hbad

/-- C10: when the options' collection list is missing or empty,
`generateStore` reports an error and performs no directory creation and
no write at all; when the store name is non-empty (its own default always
is) the error is exactly "At least one collection is required". -/
theorem generateStore_empty_collections_no_output (storeName : JStr)
    (collections : Option (List RawCollection)) (roles : List String)
    (addActivityLogging : Bool)
    (h : collections = none ∨ collections = some []) :
    (generateStore storeName collections roles addActivityLogging).1 =
      [] ∧
    (generateStore storeName collections roles
      addActivityLogging).2.isSome = true ∧
    (storeName ≠ [] →
      (generateStore storeName collections roles addActivityLogging).2 =
        some "At least one collection is required") := by
  have hcs : collections.getD [] = [] := by
    rcases h with rfl | rfl <;> rfl
  by_cases hs : storeName.isEmpty = true
  · have : storeName = [] := List.isEmpty_iff.mp hs
    refine ⟨?_, ?_, ?_⟩
    · simp [generateStore, hcs, hs]
    · simp [generateStore, hcs, hs]
    · intro hne
      exact absurd this hne
  · have hs2 : storeName.isEmpty = false := by
      simpa using hs
    refine ⟨?_, ?_, fun _ => ?_⟩ <;> simp [generateStore, hcs, hs2]

/-- Witness for `generateStore_empty_collections_no_output`: a missing
collection list with the default store name. -/
theorem generateStore_empty_collections_no_output_witness :
    ((none : Option (List RawCollection)) = none ∨
      (none : Option (List RawCollection)) = some []) ∧
    (generateStore (str "appStore") none [] false).1 = [] ∧
    (generateStore (str "appStore") none [] false).2.isSome = true ∧
    (str "appStore" ≠ [] →
      (generateStore (str "appStore") none [] false).2 =
        some "At least one collection is required") :=
  ⟨Or.inl rfl,
    generateStore_empty_collections_no_output (str "appStore") none []
      false (Or.inl rfl)⟩
